import Mathlib

/-!
Verification development for the fundraising chart generator (`app.py`).

The embedding below translates the numeric and list-processing core of the
program into Lean: `format_currency`, `is_dark_color`, the filter engine
(`apply_filter`), the aggregator (`process_data`) and the label-placement
and font-sizing logic of `generate_chart`.

Modelling conventions:
* Python floats are modelled as exact rationals; Python float formatting
  is modelled by exact decimal rounding with round-half-to-even, which
  agrees with the program on decimally exact inputs.
* Non-ASCII string literals in the source file are stored double-encoded
  (UTF-8 read back as Latin-1); they are rendered here as the characters
  the author wrote, e.g. the pound sign.
* `matplotlib.colors.to_rgb` is modelled on `#RRGGBB` hex strings, the
  only colour format the application ever supplies; all other strings are
  treated as unparseable (`ValueError` in the program, `none` here).
-/

namespace FundChart

/-- Round half to even of a rational to an integer (the rounding used by
Python float formatting). -/
def rhe (q : ℚ) : ℤ :=
  if q - ⌊q⌋ < 1 / 2 then ⌊q⌋
  else if (1 : ℚ) / 2 < q - ⌊q⌋ then ⌊q⌋ + 1
  else if 2 ∣ ⌊q⌋ then ⌊q⌋ else ⌊q⌋ + 1

/-- Decimal exponent of a positive rational: the unique `e` with
`10 ^ e ≤ x < 10 ^ (e + 1)` (junk value on nonpositive input). -/
def decExp (x : ℚ) : ℤ :=
  if (10 : ℚ) ^ ((Nat.log 10 x.num.toNat : ℤ) - (Nat.log 10 x.den : ℤ)) ≤ x
  then (Nat.log 10 x.num.toNat : ℤ) - (Nat.log 10 x.den : ℤ)
  else (Nat.log 10 x.num.toNat : ℤ) - (Nat.log 10 x.den : ℤ) - 1

/-- Round a positive rational to three significant decimal digits: returns a
mantissa `m ∈ [100, 999]` and an exponent `e`; the rounded value is
`m * 10 ^ (e - 2)`. -/
def sig3 (x : ℚ) : ℤ × ℤ :=
  if rhe (x / (10 : ℚ) ^ (decExp x - 2)) = 1000 then (100, decExp x + 1)
  else (rhe (x / (10 : ℚ) ^ (decExp x - 2)), decExp x)

/-- Mantissa rendering `d1.d2d3` with trailing fractional zeros stripped
(printf `%g` style), for `n ∈ [100, 999]`. -/
def mantissaStr (n : ℕ) : String :=
  let d1 := n / 100
  let d2 := n / 10 % 10
  let d3 := n % 10
  if d3 = 0 then
    if d2 = 0 then toString d1
    else toString d1 ++ "." ++ toString d2
  else toString d1 ++ "." ++ toString d2 ++ toString d3

/-- Exponent suffix in printf `%g` style: explicit sign, at least two digits. -/
def expStr (e : ℤ) : String :=
  let a := e.natAbs
  (if e < 0 then "e-" else "e+") ++ (if a < 10 then "0" ++ toString a else toString a)

/-- Fixed-point rendering of `n * 10 ^ (e - 2)` for `-4 ≤ e ≤ 2` and
`n ∈ [100, 999]`, trailing fractional zeros stripped. -/
def fixedStr (n : ℕ) (e : ℤ) : String :=
  let d1 := n / 100
  let d2 := n / 10 % 10
  let d3 := n % 10
  if e = 2 then toString n
  else if e = 1 then
    if d3 = 0 then toString (n / 10) else toString (n / 10) ++ "." ++ toString d3
  else if e = 0 then mantissaStr n
  else
    let zeros := String.join (List.replicate (-(e + 1)).toNat "0")
    "0." ++ zeros ++
      (if d3 = 0 then
        if d2 = 0 then toString d1 else toString d1 ++ toString d2
      else toString d1 ++ toString d2 ++ toString d3)

/-- Python `f-string` general formatting with precision 3 applied to a
positive rational (`f"{x:.3g}"`), in the exact-decimal model. -/
def g3 (x : ℚ) : String :=
  let p := sig3 x
  if p.2 < -4 ∨ 3 ≤ p.2 then mantissaStr p.1.toNat ++ expStr p.2
  else fixedStr p.1.toNat p.2

/-- The `.3g` rendering followed by the program's whole-number collapse:
`if float(s).is_integer(): s = str(int(float(s)))`. -/
def g3c (x : ℚ) : String :=
  let p := sig3 x
  let r : ℚ := p.1 * (10 : ℚ) ^ (p.2 - 2)
  if r.den = 1 then toString r.num else g3 x

/-- `format_currency` from `app.py`: pound sign, `k`/`m`/`b` units, three
significant figures. -/
def format_currency (value : ℚ) : String :=
  if value = 0 then "£0"
  else
    let neg := value < 0
    let x_abs := |value|
    let unit : String :=
      if x_abs ≥ 1e9 then "b"
      else if x_abs ≥ 1e6 then "m"
      else if x_abs ≥ 1e3 then "k"
      else ""
    let divisor : ℚ :=
      if x_abs ≥ 1e9 then 1e9
      else if x_abs ≥ 1e6 then 1e6
      else if x_abs ≥ 1e3 then 1e3
      else 1
    let scaled := x_abs / divisor
    let s := g3c scaled
    (if neg then "-" else "") ++ "£" ++ s ++ unit

/-- Value of a hexadecimal digit character, if any. -/
def hexVal? (c : Char) : Option ℕ :=
  if 48 ≤ c.toNat ∧ c.toNat ≤ 57 then some (c.toNat - 48)
  else if 97 ≤ c.toNat ∧ c.toNat ≤ 102 then some (c.toNat - 87)
  else if 65 ≤ c.toNat ∧ c.toNat ≤ 70 then some (c.toNat - 55)
  else none

/-- One colour channel scaled into `[0, 1]`. -/
def chan (hi lo : ℕ) : ℚ := ((16 * hi + lo : ℕ) : ℚ) / 255

/-- `matplotlib.colors.to_rgb` on `#RRGGBB` hex colour strings, the only
colour format the application supplies; every other string raises
`ValueError` in the program and is `none` here. -/
def to_rgb (s : String) : Option (ℚ × ℚ × ℚ) :=
  match s.toList with
  | ['#', c1, c2, c3, c4, c5, c6] =>
    match hexVal? c1, hexVal? c2, hexVal? c3, hexVal? c4, hexVal? c5, hexVal? c6 with
    | some h1, some h2, some h3, some h4, some h5, some h6 =>
      some (chan h1 h2, chan h3 h4, chan h5 h6)
    | _, _, _, _, _, _ => none
  | _ => none

/-- `is_dark_color` from `app.py`: luminance test on the parsed colour,
`False` when the colour cannot be parsed. -/
def is_dark_color (hex_color : String) : Bool :=
  match to_rgb hex_color with
  | none => false
  | some (r, g, b) => decide (0.2126 * r + 0.7152 * g + 0.0722 * b < 0.5)

/-- Bar-segment label text colour chosen in `generate_chart`:
white on a dark fill, black on a light fill. -/
def bar_text_color (c : String) : String :=
  if is_dark_color c then "#FFFFFF" else "#000000"

/-- A data-frame row for the filter engine: an association list from column
names to cell values rendered as strings (the filterable columns hold
strings). -/
abbrev Row := List (String × String)

/-- `df[col]` for one row: the value of the named column. -/
def colVal (r : Row) (c : String) : String :=
  ((r.find? (fun p => p.1 == c)).map Prod.snd).getD ""

/-- The `filter_config` dictionary assembled by the page. -/
structure FilterConfig where
  enabled : Bool
  column : String
  is_include : Bool
  values : List String
deriving DecidableEq, Repr

/-- `apply_filter` from `app.py`: include/exclude filtering on one column. -/
def apply_filter (df : List Row) (fc : FilterConfig) : List Row :=
  if !fc.enabled || fc.column == "None" then df
  else if fc.values ≠ [] then
    if fc.is_include then df.filter (fun r => decide (colVal r fc.column ∈ fc.values))
    else df.filter (fun r => decide (colVal r fc.column ∉ fc.values))
  else df

/-- One already-loaded data row as consumed by `process_data`: only the
date's year, the monetary value and the (possibly missing) category cell
are read by the aggregation. -/
structure DataRow where
  year : ℤ
  value : ℚ
  category : Option String
deriving DecidableEq, Repr

/-- One row of `final_data`: the time period, the pivoted per-category value
columns (a single total column when no category is used) and the merged
`row_count`. -/
structure AggRow where
  time_period : ℤ
  value_by_category : List (String × ℚ)
  row_count : ℕ
deriving DecidableEq, Repr

/-- The canonical value column name. -/
def VALUE_COLUMN : String := "Amount raised (converted to GBP)"

/-- Insert into a strictly ascending list, keeping it sorted and
duplicate-free (the order `pandas.groupby` gives its keys). -/
def insortDedup {α : Type} [LinearOrder α] (x : α) : List α → List α
  | [] => [x]
  | y :: ys =>
    if x < y then x :: y :: ys
    else if x = y then y :: ys
    else y :: insortDedup x ys

/-- Ascending duplicate-free list of the elements of `l`. -/
def sortedDedup {α : Type} [LinearOrder α] (l : List α) : List α :=
  l.foldr insortDedup []

/-- Year-range test, inclusive on both ends (`Series.between(..., inclusive='both')`). -/
def inRange (sy ey : ℤ) (r : DataRow) : Bool :=
  decide (sy ≤ r.year) && decide (r.year ≤ ey)

/-- `chart_data` in `process_data`: rows whose year lies in the inclusive range. -/
def chartRows (df : List DataRow) (sy ey : ℤ) : List DataRow :=
  df.filter (inRange sy ey)

/-- Sum of the value column over a list of rows. -/
def valSum (rows : List DataRow) : ℚ :=
  (rows.map DataRow.value).sum

/-- The distinct category values of the rows, ascending; rows with a missing
category cell contribute nothing (`groupby` drops missing keys). -/
def catsOf (rows : List DataRow) : List String :=
  sortedDedup (rows.filterMap DataRow.category)

/-- The pivot table's index: the distinct periods among rows that carry a
category value (rows with a missing category are dropped by the
two-key `groupby`, and the final inner merge keeps the pivot's periods). -/
def catPeriods (rows : List DataRow) : List ℤ :=
  sortedDedup ((rows.filter (fun r => decide (r.category ≠ none))).map DataRow.year)

/-- The periods of the ungrouped branch: all distinct years in range. -/
def allPeriods (rows : List DataRow) : List ℤ :=
  sortedDedup (rows.map DataRow.year)

/-- `process_data` from `app.py`.  `useCategory` mirrors
`category_column != 'None'`.  The category branch groups by
`(time_period, category)` (dropping rows with a missing category value, as
`pandas.groupby` does), pivots with `fillna(0)`, separately counts rows per
period, and inner-merges the counts onto the pivot; the plain branch groups
by period only. -/
def process_data (df : List DataRow) (sy ey : ℤ) (useCategory : Bool) :
    Except String (List AggRow) :=
  if chartRows df sy ey = [] then
    .error "No data available for the selected year range."
  else if useCategory then
    .ok ((catPeriods (chartRows df sy ey)).map (fun p =>
      { time_period := p
        value_by_category := (catsOf (chartRows df sy ey)).map (fun c =>
          (c, valSum ((chartRows df sy ey).filter
                (fun r => decide (r.year = p ∧ r.category = some c)))))
        row_count := ((chartRows df sy ey).filter (fun r => decide (r.year = p))).length }))
  else
    .ok ((allPeriods (chartRows df sy ey)).map (fun p =>
      { time_period := p
        value_by_category :=
          [(VALUE_COLUMN, valSum ((chartRows df sy ey).filter (fun r => decide (r.year = p))))]
        row_count := ((chartRows df sy ey).filter (fun r => decide (r.year = p))).length }))

/-- Total of one bucket's `value_by_category` mapping. -/
def vbcSum (b : AggRow) : ℚ :=
  (b.value_by_category.map Prod.snd).sum

/-- `DYNAMIC_FONT_SIZE` in `generate_chart`:
`int(max(8, min(22, 150 / num_bars)))`, and the (unused) fallback `12` for an
empty chart. -/
def DYNAMIC_FONT_SIZE (num_bars : ℕ) : ℤ :=
  if 0 < num_bars then ⌊max (8 : ℚ) (min 22 (150 / (num_bars : ℚ)))⌋ else 12

/-- List access with the `0` default (indices are in range wherever the
program reads). -/
def listGet (ys : List ℤ) (i : ℕ) : ℤ := ys.getD i 0

/-- The interior-point branch of the line-label placement loop in
`generate_chart` (peak / valley / slopes / flats, default above). -/
def interiorPlace (y_prev y y_next : ℤ) : Bool :=
  if y > y_prev ∧ y > y_next then true
  else if y < y_prev ∧ y < y_next then false
  else if y > y_prev ∧ y < y_next then true
  else if y < y_prev ∧ y > y_next then false
  else if y_prev = y ∧ y_next > y then true
  else if y_prev = y ∧ y_next < y then false
  else if y_prev < y ∧ y_next = y then true
  else if y_prev > y ∧ y_next = y then false
  else true

/-- The full line-label placement decision of `generate_chart` for the point
at index `i` of the row-count series. -/
def placeAbove (line_data : List ℤ) (i : ℕ) : Bool :=
  if line_data.length = 1 then true
  else if i = 0 then
    if listGet line_data (i + 1) > listGet line_data i then true
    else if listGet line_data (i + 1) < listGet line_data i then false
    else true
  else if i = line_data.length - 1 then
    if listGet line_data (i - 1) < listGet line_data i then true
    else if listGet line_data (i - 1) > listGet line_data i then false
    else true
  else interiorPlace (listGet line_data (i - 1)) (listGet line_data i) (listGet line_data (i + 1))

/-- A two-row dataset in which one row carries a category value and the
other's category cell is missing. -/
def mixedCatDf : List DataRow :=
  [⟨2020, 100, some "A"⟩, ⟨2020, 50, none⟩]

/-- A dataset whose dates all fall in 2010. -/
def df2010 : List DataRow :=
  [⟨2010, 100, some "A"⟩, ⟨2010, 7, none⟩]

/-- A small fully-categorised dataset. -/
def smallDf : List DataRow :=
  [⟨2020, 10, some "A"⟩, ⟨2021, 20, some "B"⟩, ⟨2020, 5, some "B"⟩]

/-- A small two-row table for the filter engine. -/
def smallTable : List Row :=
  [[("Sector", "Tech")], [("Sector", "Health")]]

/-- Three-way comparison on integers, used to phrase the specification's
classification. -/
def cmpInt (a b : ℤ) : Ordering :=
  if a < b then .lt else if a = b then .eq else .gt

/-- The specification's interior classification, phrased on the two
three-way comparisons (previous vs current, next vs current). -/
def slopeClass (y_prev y y_next : ℤ) : Bool :=
  match cmpInt y_prev y, cmpInt y_next y with
  | .lt, .lt => true   -- local peak
  | .gt, .gt => false  -- local valley
  | .lt, .gt => true   -- strictly rising through the point
  | .gt, .lt => false  -- strictly falling through the point
  | .eq, .gt => true   -- flat then rising
  | .eq, .lt => false  -- flat then falling
  | .lt, .eq => true   -- rising then flat
  | .gt, .eq => false  -- falling then flat
  | .eq, .eq => true   -- fully flat: default above

/-- The canonical classification exactly as the specification words it. -/
def placeAboveSpec (ys : List ℤ) (i : ℕ) : Bool :=
  if ys.length = 1 then true
  else if i = 0 then
    match cmpInt (listGet ys 1) (listGet ys 0) with
    | .gt => true   -- rising
    | .lt => false  -- falling
    | .eq => true   -- equal: default above
  else if i = ys.length - 1 then
    match cmpInt (listGet ys (i - 1)) (listGet ys i) with
    | .lt => true   -- incoming rise
    | .gt => false  -- incoming fall
    | .eq => true   -- equal: default above
  else slopeClass (listGet ys (i - 1)) (listGet ys i) (listGet ys (i + 1))

/-! Basic facts about the rounding helpers. -/

theorem rhe_dist (q : ℚ) : |q - rhe q| ≤ 1 / 2 := by
  have h1 : ((⌊q⌋ : ℚ)) ≤ q := Int.floor_le q
  have h2 : q < ⌊q⌋ + 1 := Int.lt_floor_add_one q
  unfold rhe
  split_ifs with ha hb hc
  · rw [abs_le]; constructor <;> linarith
  · rw [abs_le]; constructor <;> push_cast <;> linarith
  · have : q - ⌊q⌋ = 1 / 2 := by linarith
    rw [abs_le]; constructor <;> linarith
  · have : q - ⌊q⌋ = 1 / 2 := by linarith
    rw [abs_le]; constructor <;> push_cast <;> linarith

theorem rhe_mem (q : ℚ) : rhe q = ⌊q⌋ ∨ rhe q = ⌊q⌋ + 1 := by
  unfold rhe; split_ifs <;> simp

theorem rhe_intCast (n : ℤ) : rhe ((n : ℚ)) = n := by
  unfold rhe
  simp only [Int.floor_intCast, sub_self]
  norm_num

theorem natTenPow_cast (a : ℕ) : ((10 ^ a : ℕ) : ℚ) = (10 : ℚ) ^ (a : ℤ) := by
  rw [zpow_natCast]
  norm_cast

theorem decExp_spec {x : ℚ} (hx : 0 < x) :
    (10 : ℚ) ^ decExp x ≤ x ∧ x < (10 : ℚ) ^ (decExp x + 1) := by
  have hten : (10 : ℚ) ≠ 0 := by norm_num
  have hnum : 0 < x.num := Rat.num_pos.mpr hx
  have hn0 : x.num.toNat ≠ 0 := by omega
  have hd0 : x.den ≠ 0 := x.den_nz
  set a := Nat.log 10 x.num.toNat with ha
  set b := Nat.log 10 x.den with hb
  have hna : (10 : ℚ) ^ (a : ℤ) ≤ (x.num.toNat : ℚ) := by
    have h := Nat.pow_log_le_self 10 hn0
    rw [← ha] at h
    calc (10 : ℚ) ^ (a : ℤ) = ((10 ^ a : ℕ) : ℚ) := (natTenPow_cast a).symm
      _ ≤ (x.num.toNat : ℚ) := by exact_mod_cast h
  have hna' : (x.num.toNat : ℚ) < (10 : ℚ) ^ ((a : ℤ) + 1) := by
    have h := Nat.lt_pow_succ_log_self (by norm_num : 1 < 10) x.num.toNat
    rw [← ha] at h
    calc (x.num.toNat : ℚ) < ((10 ^ (a + 1) : ℕ) : ℚ) := by exact_mod_cast h
      _ = (10 : ℚ) ^ (((a + 1 : ℕ)) : ℤ) := natTenPow_cast (a + 1)
      _ = (10 : ℚ) ^ ((a : ℤ) + 1) := by norm_cast
  have hdb : (10 : ℚ) ^ (b : ℤ) ≤ (x.den : ℚ) := by
    have h := Nat.pow_log_le_self 10 hd0
    rw [← hb] at h
    calc (10 : ℚ) ^ (b : ℤ) = ((10 ^ b : ℕ) : ℚ) := (natTenPow_cast b).symm
      _ ≤ (x.den : ℚ) := by exact_mod_cast h
  have hdb' : (x.den : ℚ) < (10 : ℚ) ^ ((b : ℤ) + 1) := by
    have h := Nat.lt_pow_succ_log_self (by norm_num : 1 < 10) x.den
    rw [← hb] at h
    calc (x.den : ℚ) < ((10 ^ (b + 1) : ℕ) : ℚ) := by exact_mod_cast h
      _ = (10 : ℚ) ^ (((b + 1 : ℕ)) : ℤ) := natTenPow_cast (b + 1)
      _ = (10 : ℚ) ^ ((b : ℤ) + 1) := by norm_cast
  have hxnd : x = (x.num.toNat : ℚ) / (x.den : ℚ) := by
    conv_lhs => rw [← Rat.num_div_den x]
    congr 1
    exact_mod_cast (Int.toNat_of_nonneg hnum.le).symm
  have hdpos : (0 : ℚ) < (x.den : ℚ) := by exact_mod_cast x.pos
  have hnpos : (0 : ℚ) < (x.num.toNat : ℚ) := by
    have h : 0 < x.num.toNat := by omega
    exact_mod_cast h
  have hzb : (0 : ℚ) < (10 : ℚ) ^ (b : ℤ) := zpow_pos (by norm_num) _
  have hzb1 : (0 : ℚ) < (10 : ℚ) ^ ((b : ℤ) + 1) := zpow_pos (by norm_num) _
  -- upper bound: x < 10 ^ (a - b + 1)
  have hupper : x < (10 : ℚ) ^ ((a : ℤ) - b + 1) := by
    have h1 : x ≤ (x.num.toNat : ℚ) / (10 : ℚ) ^ (b : ℤ) := by
      calc x = (x.num.toNat : ℚ) / (x.den : ℚ) := hxnd
        _ ≤ (x.num.toNat : ℚ) / (10 : ℚ) ^ (b : ℤ) :=
          div_le_div_of_nonneg_left hnpos.le hzb hdb
    have h2 : (x.num.toNat : ℚ) / (10 : ℚ) ^ (b : ℤ) < (10 : ℚ) ^ ((a : ℤ) + 1) / (10 : ℚ) ^ (b : ℤ) :=
      (div_lt_div_iff_of_pos_right hzb).mpr hna'
    have h3 : (10 : ℚ) ^ ((a : ℤ) + 1) / (10 : ℚ) ^ (b : ℤ) = (10 : ℚ) ^ ((a : ℤ) - b + 1) := by
      rw [← zpow_sub₀ hten]; ring_nf
    linarith
  -- lower bound: 10 ^ (a - b - 1) < x
  have hlower : (10 : ℚ) ^ ((a : ℤ) - b - 1) < x := by
    have h1 : (10 : ℚ) ^ (a : ℤ) / (10 : ℚ) ^ ((b : ℤ) + 1) ≤ (x.num.toNat : ℚ) / (10 : ℚ) ^ ((b : ℤ) + 1) :=
      (div_le_div_iff_of_pos_right hzb1).mpr hna
    have h2 : (x.num.toNat : ℚ) / (10 : ℚ) ^ ((b : ℤ) + 1) < (x.num.toNat : ℚ) / (x.den : ℚ) :=
      div_lt_div_of_pos_left hnpos hdpos hdb'
    have h3 : (10 : ℚ) ^ (a : ℤ) / (10 : ℚ) ^ ((b : ℤ) + 1) = (10 : ℚ) ^ ((a : ℤ) - b - 1) := by
      rw [← zpow_sub₀ hten]; ring_nf
    have h4 : (x.num.toNat : ℚ) / (x.den : ℚ) = x := hxnd.symm
    linarith
  unfold decExp
  rw [← ha, ← hb]
  split_ifs with h
  · refine ⟨h, ?_⟩
    have he : (a : ℤ) - b + 1 = ((a : ℤ) - b) + 1 := by ring
    rw [he] at hupper
    exact hupper
  · constructor
    · have he : (a : ℤ) - b - 1 = ((a : ℤ) - (b : ℤ)) - 1 := by ring
      rw [he] at hlower
      exact hlower.le
    · have h4 : ((a : ℤ) - b - 1) + 1 = (a : ℤ) - b := by ring
      rw [h4]
      exact lt_of_not_le h

theorem decExp_eq {x : ℚ} {e : ℤ} (hx : 0 < x)
    (h1 : (10 : ℚ) ^ e ≤ x) (h2 : x < (10 : ℚ) ^ (e + 1)) : decExp x = e := by
  obtain ⟨hlo, hhi⟩ := decExp_spec hx
  by_contra hne
  rcases lt_or_gt_of_ne hne with h | h
  · have hm : (10 : ℚ) ^ (decExp x + 1) ≤ (10 : ℚ) ^ e :=
      zpow_le_zpow_right₀ (by norm_num) (by omega)
    linarith
  · have hm : (10 : ℚ) ^ (e + 1) ≤ (10 : ℚ) ^ (decExp x) :=
      zpow_le_zpow_right₀ (by norm_num) (by omega)
    linarith

/-- Accuracy of `sig3`: mantissa in `[100, 999]` and the rounded value within
half a unit in the last (third) significant place. -/
theorem sig3_spec {x : ℚ} (hx : 0 < x) :
    100 ≤ (sig3 x).1 ∧ (sig3 x).1 ≤ 999 ∧
      |x - (sig3 x).1 * (10 : ℚ) ^ ((sig3 x).2 - 2)| ≤ (10 : ℚ) ^ ((sig3 x).2 - 2) / 2 := by
  obtain ⟨hlo, hhi⟩ := decExp_spec hx
  set e := decExp x with he
  set q := x / (10 : ℚ) ^ (e - 2) with hq
  have hp : (0 : ℚ) < (10 : ℚ) ^ (e - 2) := zpow_pos (by norm_num) _
  have hsplit : (10 : ℚ) ^ e = 100 * (10 : ℚ) ^ (e - 2) := by
    rw [show e = 2 + (e - 2) by ring, zpow_add₀ (by norm_num : (10 : ℚ) ≠ 0)]
    norm_num
  have hsplit1 : (10 : ℚ) ^ (e + 1) = 1000 * (10 : ℚ) ^ (e - 2) := by
    rw [show e + 1 = 3 + (e - 2) by ring, zpow_add₀ (by norm_num : (10 : ℚ) ≠ 0)]
    norm_num
  have hq100 : (100 : ℚ) ≤ q := by
    rw [hq, le_div_iff₀ hp]
    rw [hsplit] at hlo
    linarith
  have hq1000 : q < 1000 := by
    rw [hq, div_lt_iff₀ hp]
    rw [hsplit1] at hhi
    linarith
  have hfl : (100 : ℤ) ≤ ⌊q⌋ := Int.le_floor.mpr (by exact_mod_cast hq100)
  have hfu : ⌊q⌋ < 1000 := by
    have : ⌊q⌋ < (1000 : ℤ) := Int.floor_lt.mpr (by exact_mod_cast hq1000)
    exact this
  have hr100 : (100 : ℤ) ≤ rhe q := by
    rcases rhe_mem q with h | h <;> omega
  have hr1000 : rhe q ≤ 1000 := by
    rcases rhe_mem q with h | h <;> omega
  have hxq : x = q * (10 : ℚ) ^ (e - 2) := by
    rw [hq, div_mul_cancel₀]
    exact hp.ne'
  have hdist : ∀ m : ℤ, |q - m| ≤ 1 / 2 → |x - m * (10 : ℚ) ^ (e - 2)| ≤ (10 : ℚ) ^ (e - 2) / 2 := by
    intro m hm
    have hfac : x - m * (10 : ℚ) ^ (e - 2) = (q - m) * (10 : ℚ) ^ (e - 2) := by
      rw [hxq]; ring
    rw [hfac, abs_mul, abs_of_pos hp]
    calc |q - (m : ℚ)| * (10 : ℚ) ^ (e - 2) ≤ (1 / 2) * (10 : ℚ) ^ (e - 2) := by
          exact mul_le_mul_of_nonneg_right hm hp.le
      _ = (10 : ℚ) ^ (e - 2) / 2 := by ring
  have hrd := rhe_dist q
  unfold sig3
  rw [← he, ← hq]
  split_ifs with hcarry
  · -- the rounded mantissa overflowed to 1000: carry into the next exponent
    refine ⟨by norm_num, by norm_num, ?_⟩
    have hval : ((100 : ℤ) : ℚ) * (10 : ℚ) ^ (e + 1 - 2) = ((1000 : ℤ) : ℚ) * (10 : ℚ) ^ (e - 2) := by
      rw [show e + 1 - 2 = 1 + (e - 2) by ring, zpow_add₀ (by norm_num : (10 : ℚ) ≠ 0)]
      push_cast
      ring
    have h1 : |x - ((1000 : ℤ) : ℚ) * (10 : ℚ) ^ (e - 2)| ≤ (10 : ℚ) ^ (e - 2) / 2 := by
      have := hdist 1000 (by rw [← hcarry]; exact_mod_cast hrd)
      exact_mod_cast this
    have h2 : ((10 : ℚ) ^ (e - 2) / 2) ≤ (10 : ℚ) ^ (e + 1 - 2) / 2 := by
      have : (10 : ℚ) ^ (e - 2) ≤ (10 : ℚ) ^ (e + 1 - 2) :=
        zpow_le_zpow_right₀ (by norm_num) (by omega)
      linarith
    simp only
    rw [hval]
    exact le_trans h1 h2
  · refine ⟨by simpa using hr100, by omega, ?_⟩
    simp only
    exact hdist (rhe q) (by exact_mod_cast hrd)

theorem sig3_eq {x : ℚ} {e m : ℤ} (hx : 0 < x)
    (h1 : (10 : ℚ) ^ e ≤ x) (h2 : x < (10 : ℚ) ^ (e + 1))
    (hm : rhe (x / (10 : ℚ) ^ (e - 2)) = m) (hne : m ≠ 1000) : sig3 x = (m, e) := by
  unfold sig3
  rw [decExp_eq hx h1 h2, hm]
  simp [hne]

/-- `sig3` is the identity on values that are already exact three-digit
mantissa/exponent combinations. -/
theorem sig3_exact {m e : ℤ} (hm1 : 100 ≤ m) (hm2 : m ≤ 999) :
    sig3 ((m : ℚ) * (10 : ℚ) ^ (e - 2)) = (m, e) := by
  have hp : (0 : ℚ) < (10 : ℚ) ^ (e - 2) := zpow_pos (by norm_num) _
  have hmq : (100 : ℚ) ≤ (m : ℚ) := by exact_mod_cast hm1
  have hmq' : (m : ℚ) ≤ 999 := by exact_mod_cast hm2
  have hx : 0 < (m : ℚ) * (10 : ℚ) ^ (e - 2) := by positivity
  refine sig3_eq hx ?_ ?_ ?_ ?_
  · have hs : (10 : ℚ) ^ e = 100 * (10 : ℚ) ^ (e - 2) := by
      rw [show e = 2 + (e - 2) by ring, zpow_add₀ (by norm_num : (10 : ℚ) ≠ 0)]
      norm_num
    rw [hs]
    exact mul_le_mul_of_nonneg_right hmq hp.le
  · have hs : (10 : ℚ) ^ (e + 1) = 1000 * (10 : ℚ) ^ (e - 2) := by
      rw [show e + 1 = 3 + (e - 2) by ring, zpow_add₀ (by norm_num : (10 : ℚ) ≠ 0)]
      norm_num
    rw [hs]
    have hlt : (m : ℚ) < 1000 := by linarith
    exact mul_lt_mul_of_pos_right hlt hp
  · rw [mul_div_cancel_right₀ _ hp.ne']
    exact rhe_intCast m
  · omega

theorem g3c_exact_int {m e n : ℤ} (hm1 : 100 ≤ m) (hm2 : m ≤ 999)
    (hn : (m : ℚ) * (10 : ℚ) ^ (e - 2) = (n : ℚ)) :
    g3c ((m : ℚ) * (10 : ℚ) ^ (e - 2)) = toString n := by
  have hs := sig3_exact hm1 hm2 (e := e)
  simp only [g3c, hs]
  rw [hn]
  simp

theorem g3c_exact_frac {m e : ℤ} (hm1 : 100 ≤ m) (hm2 : m ≤ 999)
    (hden : (((m : ℚ)) * (10 : ℚ) ^ (e - 2)).den ≠ 1) (h4 : -4 ≤ e) (h3 : e < 3) :
    g3c ((m : ℚ) * (10 : ℚ) ^ (e - 2)) = fixedStr m.toNat e := by
  have hs := sig3_exact hm1 hm2 (e := e)
  have hcond : ¬ (e < -4 ∨ 3 ≤ e) := by omega
  simp [g3c, hs, hden, g3, hcond]

/-- The small-magnitude branch of `format_currency`: no unit, no division. -/
theorem format_currency_small {v : ℚ} (h0 : v ≠ 0) (hlt : |v| < 1000) :
    format_currency v = (if v < 0 then "-" else "") ++ "£" ++ g3c |v| := by
  have h3 : ¬ (|v| ≥ 1e3) := by
    rw [show (1e3 : ℚ) = 1000 by norm_num]
    exact not_le.mpr hlt
  have h6 : ¬ (|v| ≥ 1e6) := by
    rw [show (1e6 : ℚ) = 1000000 by norm_num]
    refine not_le.mpr (lt_trans hlt (by norm_num))
  have h9 : ¬ (|v| ≥ 1e9) := by
    rw [show (1e9 : ℚ) = 1000000000 by norm_num]
    refine not_le.mpr (lt_trans hlt (by norm_num))
  simp only [format_currency, if_neg h0, h3, h6, h9, if_false, div_one, String.append_empty]

/-- The large-magnitude branches of `format_currency`: unit thresholds and
scaling divisors. -/
theorem format_currency_large {v : ℚ} (h : 1000 ≤ |v|) :
    format_currency v = (if v < 0 then "-" else "") ++ "£" ++
      (if |v| ≥ 1e9 then g3c (|v| / 1e9) ++ "b"
       else if |v| ≥ 1e6 then g3c (|v| / 1e6) ++ "m"
       else g3c (|v| / 1e3) ++ "k") := by
  have h0 : v ≠ 0 := by
    intro h'
    rw [h'] at h
    norm_num at h
  simp only [format_currency, if_neg h0]
  by_cases h9 : |v| ≥ 1e9
  · simp only [h9, if_true, String.append_assoc]
  · by_cases h6 : |v| ≥ 1e6
    · simp only [h9, h6, if_true, if_false, String.append_assoc]
    · have h3 : |v| ≥ 1e3 := by
        rw [show (1e3 : ℚ) = 1000 by norm_num]
        exact h
      simp only [h9, h6, h3, if_true, if_false, String.append_assoc]

theorem fc_999 : format_currency 999 = "£999" := by
  rw [format_currency_small (by norm_num) (by norm_num)]
  rw [show |(999 : ℚ)| = ((999 : ℤ) : ℚ) * (10 : ℚ) ^ ((2 : ℤ) - 2) by norm_num]
  rw [g3c_exact_int (by norm_num) (by norm_num)
    (show ((999 : ℤ) : ℚ) * (10 : ℚ) ^ ((2 : ℤ) - 2) = ((999 : ℤ) : ℚ) by norm_num)]
  norm_num
  rfl

theorem fc_1000 : format_currency 1000 = "£1k" := by
  rw [format_currency_large (by norm_num)]
  rw [if_neg (by norm_num : ¬ (|(1000 : ℚ)| ≥ 1e9)), if_neg (by norm_num : ¬ (|(1000 : ℚ)| ≥ 1e6))]
  rw [show |(1000 : ℚ)| / 1e3 = ((100 : ℤ) : ℚ) * (10 : ℚ) ^ ((0 : ℤ) - 2) by norm_num]
  rw [g3c_exact_int (by norm_num) (by norm_num)
    (show ((100 : ℤ) : ℚ) * (10 : ℚ) ^ ((0 : ℤ) - 2) = ((1 : ℤ) : ℚ) by norm_num)]
  norm_num
  rfl

theorem fc_2000000 : format_currency 2000000 = "£2m" := by
  rw [format_currency_large (by norm_num)]
  rw [if_neg (by norm_num : ¬ (|(2000000 : ℚ)| ≥ 1e9)),
    if_pos (by norm_num : |(2000000 : ℚ)| ≥ 1e6)]
  rw [show |(2000000 : ℚ)| / 1e6 = ((200 : ℤ) : ℚ) * (10 : ℚ) ^ ((0 : ℤ) - 2) by norm_num]
  rw [g3c_exact_int (by norm_num) (by norm_num)
    (show ((200 : ℤ) : ℚ) * (10 : ℚ) ^ ((0 : ℤ) - 2) = ((2 : ℤ) : ℚ) by norm_num)]
  norm_num
  rfl

theorem fc_1500000000 : format_currency 1500000000 = "£1.5b" := by
  rw [format_currency_large (by norm_num)]
  rw [if_pos (by norm_num : |(1500000000 : ℚ)| ≥ 1e9)]
  rw [show |(1500000000 : ℚ)| / 1e9 = ((150 : ℤ) : ℚ) * (10 : ℚ) ^ ((0 : ℤ) - 2) by norm_num]
  rw [g3c_exact_frac (by norm_num) (by norm_num) (by norm_num) (by norm_num) (by norm_num)]
  norm_num
  rfl

theorem fc_neg5000 : format_currency (-5000) = "-£5k" := by
  rw [format_currency_large (by norm_num)]
  rw [if_neg (by norm_num : ¬ (|(-5000 : ℚ)| ≥ 1e9)), if_neg (by norm_num : ¬ (|(-5000 : ℚ)| ≥ 1e6))]
  rw [show |(-5000 : ℚ)| / 1e3 = ((500 : ℤ) : ℚ) * (10 : ℚ) ^ ((0 : ℤ) - 2) by norm_num]
  rw [g3c_exact_int (by norm_num) (by norm_num)
    (show ((500 : ℤ) : ℚ) * (10 : ℚ) ^ ((0 : ℤ) - 2) = ((5 : ℤ) : ℚ) by norm_num)]
  norm_num
  rfl

theorem fc_zero : format_currency 0 = "£0" := by
  simp [format_currency]

theorem fc_half : format_currency (1 / 2) = "£0.5" := by
  rw [format_currency_small (by norm_num)
    (by rw [abs_of_pos (by norm_num : (0 : ℚ) < 1 / 2)]; norm_num)]
  rw [show |(1 / 2 : ℚ)| = ((500 : ℤ) : ℚ) * (10 : ℚ) ^ ((-1 : ℤ) - 2) by norm_num]
  rw [g3c_exact_frac (by norm_num) (by norm_num) (by norm_num) (by norm_num) (by norm_num)]
  norm_num
  rfl

/-! Line-label placement: the code's branch chain coincides with the
specification's classification. -/

theorem interiorPlace_eq (p y n : ℤ) : interiorPlace p y n = slopeClass p y n := by
  rcases lt_trichotomy p y with h1 | h1 | h1 <;> rcases lt_trichotomy n y with h2 | h2 | h2
  · simp [interiorPlace, slopeClass, cmpInt, h1, h2]
  · subst h2
    simp [interiorPlace, slopeClass, cmpInt, h1, lt_irrefl, ne_of_lt h1]
  · simp [interiorPlace, slopeClass, cmpInt, h1, h2, lt_asymm h2, ne_of_gt h2]
    omega
  · subst h1
    simp [interiorPlace, slopeClass, cmpInt, h2, lt_irrefl]
    omega
  · subst h1; subst h2
    simp [interiorPlace, slopeClass, cmpInt, lt_irrefl]
  · subst h1
    simp [interiorPlace, slopeClass, cmpInt, h2, lt_irrefl, lt_asymm h2, ne_of_gt h2]
  · simp [interiorPlace, slopeClass, cmpInt, h1, h2, lt_asymm h1, ne_of_gt h1]
  · subst h2
    simp [interiorPlace, slopeClass, cmpInt, h1, lt_irrefl, lt_asymm h1, ne_of_gt h1]
  · simp [interiorPlace, slopeClass, cmpInt, h1, h2, lt_asymm h1, lt_asymm h2,
      ne_of_gt h1, ne_of_gt h2]

theorem placeAbove_eq_spec (ys : List ℤ) (i : ℕ) : placeAbove ys i = placeAboveSpec ys i := by
  unfold placeAbove placeAboveSpec
  by_cases h1 : ys.length = 1
  · simp [h1]
  · simp only [h1, if_false]
    by_cases h0 : i = 0
    · subst h0
      simp only [if_pos rfl]
      rcases lt_trichotomy (listGet ys 1) (listGet ys 0) with h | h | h
      · simp [cmpInt, h, lt_asymm h, ne_of_gt h]
      · simp [cmpInt, h, lt_irrefl]
      · simp [cmpInt, h, lt_asymm h, ne_of_gt h]
    · simp only [h0, if_false]
      by_cases hl : i = ys.length - 1
      · simp only [hl, if_pos rfl]
        rcases lt_trichotomy (listGet ys (ys.length - 1 - 1)) (listGet ys (ys.length - 1)) with h | h | h
        · simp [cmpInt, h, lt_asymm h, ne_of_lt h]
        · simp [cmpInt, h, lt_irrefl]
        · simp [cmpInt, h, lt_asymm h, ne_of_gt h]
      · simp only [hl, if_false]
        exact interiorPlace_eq _ _ _

theorem placement_peak : placeAbove [1, 5, 1] 1 = true := by decide

theorem placement_valley : placeAbove [5, 1, 5] 1 = false := by decide

theorem placement_increasing :
    (List.range 5).all (fun i => placeAbove [1, 2, 3, 4, 5] i) = true := by decide

theorem placement_decreasing :
    (List.range 5).all (fun i => !placeAbove [5, 4, 3, 2, 1] i) = true := by decide

/-! Facts about `sortedDedup` and list sums, supporting the aggregation
invariants. -/

theorem mem_insortDedup {α : Type} [LinearOrder α] (x a : α) (l : List α) :
    a ∈ insortDedup x l ↔ a = x ∨ a ∈ l := by
  induction l with
  | nil => simp [insortDedup]
  | cons y ys ih =>
    unfold insortDedup
    split_ifs with h1 h2
    · simp [List.mem_cons]
    · subst h2
      simp [List.mem_cons]
    · simp only [List.mem_cons, ih]
      tauto

theorem sorted_insortDedup {α : Type} [LinearOrder α] (x : α) (l : List α)
    (h : l.Sorted (· < ·)) : (insortDedup x l).Sorted (· < ·) := by
  induction l with
  | nil => simp [insortDedup]
  | cons y ys ih =>
    rw [List.sorted_cons] at h
    unfold insortDedup
    split_ifs with h1 h2
    · rw [List.sorted_cons]
      refine ⟨?_, List.sorted_cons.mpr h⟩
      intro b hb
      rcases List.mem_cons.mp hb with rfl | hb'
      · exact h1
      · exact lt_trans h1 (h.1 b hb')
    · exact List.sorted_cons.mpr h
    · rw [List.sorted_cons]
      constructor
      · intro b hb
        rcases (mem_insortDedup x b ys).mp hb with rfl | hb'
        · exact lt_of_le_of_ne (not_lt.mp h1) (Ne.symm h2)
        · exact h.1 b hb'
      · exact ih h.2

theorem sortedDedup_sorted {α : Type} [LinearOrder α] (l : List α) :
    (sortedDedup l).Sorted (· < ·) := by
  induction l with
  | nil => simp [sortedDedup]
  | cons x xs ih => exact sorted_insortDedup x (sortedDedup xs) ih

theorem sortedDedup_nodup {α : Type} [LinearOrder α] (l : List α) :
    (sortedDedup l).Nodup :=
  (sortedDedup_sorted l).nodup

theorem mem_sortedDedup {α : Type} [LinearOrder α] {l : List α} {a : α} :
    a ∈ sortedDedup l ↔ a ∈ l := by
  induction l with
  | nil => simp [sortedDedup]
  | cons x xs ih =>
    show a ∈ insortDedup x (sortedDedup xs) ↔ _
    rw [mem_insortDedup, ih]
    simp [List.mem_cons]

theorem sumMapAdd {α : Type} (l : List α) (f g : α → ℚ) :
    (l.map (fun x => f x + g x)).sum = (l.map f).sum + (l.map g).sum := by
  induction l with
  | nil => simp
  | cons x xs ih => simp only [List.map_cons, List.sum_cons, ih, add_add_add_comm]

theorem sum_map_single {cats : List String} (hnd : cats.Nodup) {c0 : String}
    (hc : c0 ∈ cats) (v : ℚ) :
    (cats.map (fun c => if c0 = c then v else 0)).sum = v := by
  induction cats with
  | nil => cases hc
  | cons d ds ih =>
    rw [List.nodup_cons] at hnd
    rcases List.mem_cons.mp hc with rfl | hc'
    · have hz : (ds.map (fun c => if c0 = c then v else 0)).sum = 0 := by
        apply List.sum_eq_zero
        intro x hx
        rcases List.mem_map.mp hx with ⟨c, hcds, rfl⟩
        exact if_neg (by rintro rfl; exact hnd.1 hcds)
      simp [List.map_cons, List.sum_cons, hz]
    · simp only [List.map_cons, List.sum_cons]
      rw [if_neg (by rintro rfl; exact hnd.1 hc'), ih hnd.2 hc']
      ring

theorem decide_and_eq (p q : Prop) [Decidable p] [Decidable q] :
    decide (p ∧ q) = (decide p && decide q) := by
  by_cases p <;> by_cases q <;> simp [*]

/-- Summing the per-category sums over a duplicate-free covering list of
categories counts every categorised row exactly once. -/
theorem sum_by_cats (rows : List DataRow) (cats : List String) (hnd : cats.Nodup)
    (hcov : ∀ r ∈ rows, ∀ c, r.category = some c → c ∈ cats) :
    (cats.map (fun c => valSum (rows.filter (fun r => decide (r.category = some c))))).sum
      = valSum (rows.filter (fun r => decide (r.category ≠ none))) := by
  induction rows with
  | nil =>
    simp only [List.filter_nil, valSum, List.map_nil, List.sum_nil]
    apply List.sum_eq_zero
    intro x hx
    rcases List.mem_map.mp hx with ⟨c, _, rfl⟩
    rfl
  | cons r rs ih =>
    have ih' := ih (fun r' hr' => hcov r' (List.mem_cons_of_mem _ hr'))
    cases hrc : r.category with
    | none =>
      have hfun : ∀ c : String,
          valSum ((r :: rs).filter (fun r' => decide (r'.category = some c)))
            = valSum (rs.filter (fun r' => decide (r'.category = some c))) := by
        intro c
        rw [List.filter_cons]
        simp [hrc]
      simp only [hfun]
      rw [ih']
      rw [List.filter_cons]
      simp [hrc]
    | some c0 =>
      have hc0in : c0 ∈ cats := hcov r (List.mem_cons_self r rs) c0 hrc
      have hfun : ∀ c : String,
          valSum ((r :: rs).filter (fun r' => decide (r'.category = some c)))
            = (if c0 = c then r.value else 0)
              + valSum (rs.filter (fun r' => decide (r'.category = some c))) := by
        intro c
        rw [List.filter_cons]
        by_cases hcc : c0 = c
        · subst hcc
          simp [hrc, valSum]
        · have : ¬ (r.category = some c) := by
            rw [hrc]
            simp [hcc]
          simp [this, hcc]
      simp only [hfun]
      rw [sumMapAdd, sum_map_single hnd hc0in, ih']
      rw [List.filter_cons]
      have hcond : decide (r.category ≠ none) = true := by simp [hrc]
      rw [if_pos hcond]
      simp [valSum]

theorem lookup_map_self {β : Type} (cats : List String) (s : String → β) {c : String}
    (hc : c ∈ cats) :
    (cats.map (fun c' => (c', s c'))).lookup c = some (s c) := by
  induction cats with
  | nil => cases hc
  | cons d ds ih =>
    rcases List.mem_cons.mp hc with rfl | hc'
    · simp [List.lookup]
    · by_cases hdc : c = d
      · subst hdc
        simp [List.lookup]
      · have hbeq : (c == d) = false := by simpa using hdc
        simp only [List.map_cons, List.lookup, hbeq]
        exact ih hc'

/-! Characterisations of `process_data`. -/

theorem mem_chartRows {df : List DataRow} {sy ey : ℤ} {r : DataRow} :
    r ∈ chartRows df sy ey ↔ r ∈ df ∧ (sy ≤ r.year ∧ r.year ≤ ey) := by
  simp [chartRows, List.mem_filter, inRange]

theorem process_data_empty {df : List DataRow} {sy ey : ℤ} {u : Bool}
    (he : chartRows df sy ey = []) :
    process_data df sy ey u = .error "No data available for the selected year range." := by
  unfold process_data
  rw [if_pos he]

theorem process_data_not_error {df : List DataRow} {sy ey : ℤ} {u : Bool}
    (hne : chartRows df sy ey ≠ []) :
    ∃ bs, process_data df sy ey u = .ok bs := by
  unfold process_data
  rw [if_neg hne]
  cases u <;> simp

theorem process_data_cat {df : List DataRow} {sy ey : ℤ} {bs : List AggRow}
    (h : process_data df sy ey true = .ok bs) :
    bs = (catPeriods (chartRows df sy ey)).map (fun p =>
      { time_period := p
        value_by_category := (catsOf (chartRows df sy ey)).map (fun c =>
          (c, valSum ((chartRows df sy ey).filter
                (fun r => decide (r.year = p ∧ r.category = some c)))))
        row_count := ((chartRows df sy ey).filter (fun r => decide (r.year = p))).length }) := by
  by_cases hne : chartRows df sy ey = []
  · rw [process_data_empty hne] at h
    exact absurd h (by simp)
  · unfold process_data at h
    rw [if_neg hne] at h
    simpa using h.symm

theorem process_data_plain {df : List DataRow} {sy ey : ℤ} {bs : List AggRow}
    (h : process_data df sy ey false = .ok bs) :
    bs = (allPeriods (chartRows df sy ey)).map (fun p =>
      { time_period := p
        value_by_category :=
          [(VALUE_COLUMN, valSum ((chartRows df sy ey).filter (fun r => decide (r.year = p))))]
        row_count := ((chartRows df sy ey).filter (fun r => decide (r.year = p))).length }) := by
  by_cases hne : chartRows df sy ey = []
  · rw [process_data_empty hne] at h
    exact absurd h (by simp)
  · unfold process_data at h
    rw [if_neg hne] at h
    simpa using h.symm

theorem process_data_ok_ne {df : List DataRow} {sy ey : ℤ} {u : Bool} {bs : List AggRow}
    (h : process_data df sy ey u = .ok bs) : chartRows df sy ey ≠ [] := by
  intro he
  rw [process_data_empty he] at h
  exact absurd h (by simp)

/-! Colour parsing and the darkness test. -/

theorem hexVal?_le {c : Char} {v : ℕ} (h : hexVal? c = some v) : v ≤ 15 := by
  unfold hexVal? at h
  split_ifs at h <;> simp at h <;> omega

theorem chan_bounds {hi lo : ℕ} (h1 : hi ≤ 15) (h2 : lo ≤ 15) :
    0 ≤ chan hi lo ∧ chan hi lo ≤ 1 := by
  constructor
  · unfold chan
    positivity
  · unfold chan
    rw [div_le_one (by norm_num)]
    have hle : 16 * hi + lo ≤ 255 := by omega
    exact_mod_cast hle

theorem to_rgb_bounds {s : String} {r g b : ℚ} (h : to_rgb s = some (r, g, b)) :
    (0 ≤ r ∧ r ≤ 1) ∧ (0 ≤ g ∧ g ≤ 1) ∧ (0 ≤ b ∧ b ≤ 1) := by
  unfold to_rgb at h
  split at h
  case h_2 => exact absurd h (by simp)
  case h_1 c1 c2 c3 c4 c5 c6 heq =>
    split at h
    case h_2 => exact absurd h (by simp)
    case h_1 h1 h2 h3 h4 h5 h6 e1 e2 e3 e4 e5 e6 =>
      have hinj := Option.some.inj h
      obtain ⟨hr, hg, hb⟩ : chan h1 h2 = r ∧ chan h3 h4 = g ∧ chan h5 h6 = b := by
        rw [Prod.ext_iff, Prod.ext_iff] at hinj
        exact ⟨hinj.1, hinj.2.1, hinj.2.2⟩
      subst hr; subst hg; subst hb
      exact ⟨chan_bounds (hexVal?_le e1) (hexVal?_le e2),
        chan_bounds (hexVal?_le e3) (hexVal?_le e4),
        chan_bounds (hexVal?_le e5) (hexVal?_le e6)⟩

theorem is_dark_color_some {s : String} {r g b : ℚ} (h : to_rgb s = some (r, g, b)) :
    (is_dark_color s = true ↔ 0.2126 * r + 0.7152 * g + 0.0722 * b < 0.5) := by
  simp [is_dark_color, h]

theorem is_dark_color_none {s : String} (h : to_rgb s = none) :
    is_dark_color s = false := by
  simp [is_dark_color, h]

theorem to_rgb_black : to_rgb "#000000" = some (chan 0 0, chan 0 0, chan 0 0) := rfl

theorem to_rgb_white : to_rgb "#FFFFFF" = some (chan 15 15, chan 15 15, chan 15 15) := rfl

theorem is_dark_black : is_dark_color "#000000" = true := by
  rw [(is_dark_color_some to_rgb_black)]
  norm_num [chan]

theorem is_dark_white : is_dark_color "#FFFFFF" = false := by
  rw [Bool.eq_false_iff]
  intro hcon
  have h := (is_dark_color_some to_rgb_white).mp hcon
  norm_num [chan] at h

theorem bar_text_color_white_iff (s : String) :
    bar_text_color s = "#FFFFFF" ↔ is_dark_color s = true := by
  unfold bar_text_color
  cases h : is_dark_color s
  · simp only [if_false, Bool.false_eq_true, iff_false]
    decide
  · simp

theorem bar_text_color_black_iff (s : String) :
    bar_text_color s = "#000000" ↔ is_dark_color s = false := by
  unfold bar_text_color
  cases h : is_dark_color s
  · simp
  · simp only [if_true, Bool.true_eq_false, iff_false]
    decide

/-! Concrete evaluations of `process_data` used by witnesses. -/

theorem insortDedup_cons_lt {α : Type} [LinearOrder α] {x y : α} (h : x < y) (ys : List α) :
    insortDedup x (y :: ys) = x :: y :: ys := by
  rw [insortDedup, if_pos h]

theorem insortDedup_cons_eq {α : Type} [LinearOrder α] {x y : α} (h : x = y) (ys : List α) :
    insortDedup x (y :: ys) = y :: ys := by
  rw [insortDedup, if_neg (h ▸ lt_irrefl x), if_pos h]

theorem insortDedup_cons_gt {α : Type} [LinearOrder α] {x y : α} (h : y < x) (ys : List α) :
    insortDedup x (y :: ys) = y :: insortDedup x ys := by
  rw [insortDedup, if_neg (asymm h), if_neg (ne_of_gt h)]

theorem strAB_lt : ("A" : String) < "B" := by
  rw [String.lt_iff_toList_lt]
  decide

theorem catsOf_smallDf : catsOf smallDf = ["A", "B"] := by
  have e2 : insortDedup "B" ["B"] = ["B"] := insortDedup_cons_eq rfl []
  have e3 : insortDedup "A" ["B"] = ["A", "B"] := insortDedup_cons_lt strAB_lt []
  calc catsOf smallDf = insortDedup "A" (insortDedup "B" ["B"]) := rfl
    _ = insortDedup "A" ["B"] := by rw [e2]
    _ = ["A", "B"] := e3

theorem catsOf_mixed : catsOf mixedCatDf = ["A"] := rfl

theorem pd_smallDf_plain : process_data smallDf 2020 2021 false =
    Except.ok [⟨2020, [(VALUE_COLUMN, 15)], 2⟩, ⟨2021, [(VALUE_COLUMN, 20)], 1⟩] := by
  have hcr : chartRows smallDf 2020 2021 = smallDf := by decide
  unfold process_data
  rw [hcr]
  rw [if_neg (by decide : ¬ (smallDf = []))]
  rw [if_neg (by decide : ¬ (false = true))]
  rw [(by decide : allPeriods smallDf = [2020, 2021])]
  simp only [List.map_cons, List.map_nil]
  norm_num [valSum, smallDf, List.filter_cons, List.sum_cons]

theorem pd_smallDf_cat : process_data smallDf 2020 2021 true =
    Except.ok [⟨2020, [("A", 10), ("B", 5)], 2⟩, ⟨2021, [("A", 0), ("B", 20)], 1⟩] := by
  have hcr : chartRows smallDf 2020 2021 = smallDf := by decide
  unfold process_data
  rw [hcr]
  rw [if_neg (by decide : ¬ (smallDf = []))]
  rw [if_pos (rfl : (true = true))]
  rw [(by decide : catPeriods smallDf = [2020, 2021])]
  rw [catsOf_smallDf]
  simp only [List.map_cons, List.map_nil]
  norm_num [valSum, smallDf, List.filter_cons, List.sum_cons,
    show ¬ (("B" : String) = "A") from by decide, show ¬ (("A" : String) = "B") from by decide]

theorem pd_mixed : process_data mixedCatDf 2020 2020 true =
    Except.ok [⟨2020, [("A", 100)], 2⟩] := by
  have hcr : chartRows mixedCatDf 2020 2020 = mixedCatDf := by decide
  unfold process_data
  rw [hcr]
  rw [if_neg (by decide : ¬ (mixedCatDf = []))]
  rw [if_pos (rfl : (true = true))]
  rw [(by decide : catPeriods mixedCatDf = [2020])]
  rw [catsOf_mixed]
  simp only [List.map_cons, List.map_nil]
  norm_num [valSum, mixedCatDf, List.filter_cons, List.sum_cons,
    show ¬ ((none : Option String) = some "A") from by decide]

/-! The claims. -/

/-- C1: for every ordered sequence of per-bucket row counts and every index,
the line-point label placement computed by the chart code follows the
canonical classification of the specification: single point above; first
point above on a rise, below on a fall, above on equality; last point above
on an incoming rise, below on an incoming fall, above on equality; interior
points classified by peak / valley / strict slopes / flat combinations with
default above. -/
theorem c1_line_label_placement :
    ∀ (ys : List ℤ) (i : ℕ), placeAbove ys i = placeAboveSpec ys i :=
  placeAbove_eq_spec

/-- C4: the filter engine is the identity when disabled, when the column is
unset, or when the value set is empty; otherwise Include keeps exactly the
rows whose value in the chosen column is in the value set, and Exclude keeps
exactly the rows whose value is not in it. -/
theorem c4_filter_engine :
    ∀ (df : List Row) (fc : FilterConfig),
      ((fc.enabled = false ∨ fc.column = "None" ∨ fc.values = []) → apply_filter df fc = df) ∧
      (fc.enabled = true → fc.column ≠ "None" → fc.values ≠ [] → fc.is_include = true →
        apply_filter df fc = df.filter (fun r => decide (colVal r fc.column ∈ fc.values))) ∧
      (fc.enabled = true → fc.column ≠ "None" → fc.values ≠ [] → fc.is_include = false →
        apply_filter df fc = df.filter (fun r => decide (colVal r fc.column ∉ fc.values))) := by
  intro df fc
  refine ⟨?_, ?_, ?_⟩
  · rintro (h | h | h)
    · simp [apply_filter, h]
    · simp [apply_filter, h]
    · by_cases hc : (!fc.enabled || fc.column == "None") = true
      · simp [apply_filter, hc]
      · simp [apply_filter, hc, h]
  · intro he hcol hv hi
    have hc : (!fc.enabled || fc.column == "None") = false := by
      simp [he, hcol]
    simp [apply_filter, hc, hv, hi]
  · intro he hcol hv hi
    have hc : (!fc.enabled || fc.column == "None") = false := by
      simp [he, hcol]
    simp [apply_filter, hc, hv, hi]

/-- Witness for C4 at a concrete table and three concrete configurations. -/
theorem c4_filter_engine_witness :
    apply_filter smallTable ⟨false, "Sector", true, ["Tech"]⟩ = smallTable ∧
    apply_filter smallTable ⟨true, "Sector", true, ["Tech"]⟩ =
      smallTable.filter (fun r => decide (colVal r "Sector" ∈ ["Tech"])) ∧
    apply_filter smallTable ⟨true, "Sector", false, ["Tech"]⟩ =
      smallTable.filter (fun r => decide (colVal r "Sector" ∉ ["Tech"])) :=
  ⟨(c4_filter_engine smallTable ⟨false, "Sector", true, ["Tech"]⟩).1 (Or.inl rfl),
   (c4_filter_engine smallTable ⟨true, "Sector", true, ["Tech"]⟩).2.1 rfl
     (by decide) (by decide) rfl,
   (c4_filter_engine smallTable ⟨true, "Sector", false, ["Tech"]⟩).2.2 rfl
     (by decide) (by decide) rfl⟩

/-- C6: every aggregated bucket's `row_count` equals the number of raw rows
mapped into that bucket (the in-range rows with that period), whether or not
a category column is used. -/
theorem c6_row_count :
    ∀ (df : List DataRow) (sy ey : ℤ) (u : Bool) (bs : List AggRow),
      process_data df sy ey u = .ok bs → ∀ b ∈ bs,
      b.row_count
        = ((chartRows df sy ey).filter (fun r => decide (r.year = b.time_period))).length := by
  intro df sy ey u bs h b hb
  cases u
  · rw [process_data_plain h] at hb
    rcases List.mem_map.mp hb with ⟨p, _, rfl⟩
    rfl
  · rw [process_data_cat h] at hb
    rcases List.mem_map.mp hb with ⟨p, _, rfl⟩
    rfl

/-- Witness for C6 on a concrete categorised dataset: the first bucket of the
aggregation of `smallDf` counts its two records. -/
theorem c6_row_count_witness :
    (⟨2020, [("A", 10), ("B", 5)], 2⟩ : AggRow).row_count
      = ((chartRows smallDf 2020 2021).filter
          (fun r => decide (r.year = (⟨2020, [("A", 10), ("B", 5)], 2⟩ : AggRow).time_period))).length :=
  c6_row_count smallDf 2020 2021 true _ pd_smallDf_cat _ (List.mem_cons_self _ _)

/-- C7: the aggregator keeps exactly the rows whose year lies in the
inclusive range (every surviving bucket period lies in the range, and the
range filter is empty exactly when no row's year lies between the bounds),
fails with the empty-range error exactly when no rows survive the range
filter, and in particular errors on an all-2010 dataset with range
2015–2020. -/
theorem c7_year_range :
    (∀ (df : List DataRow) (sy ey : ℤ) (u : Bool),
      ((∃ e, process_data df sy ey u = .error e) ↔ chartRows df sy ey = []) ∧
      (chartRows df sy ey = [] ↔ ∀ r ∈ df, ¬ (sy ≤ r.year ∧ r.year ≤ ey)) ∧
      (∀ bs, process_data df sy ey u = .ok bs →
        ∀ b ∈ bs, sy ≤ b.time_period ∧ b.time_period ≤ ey)) ∧
    process_data df2010 2015 2020 false
      = .error "No data available for the selected year range." := by
  constructor
  · intro df sy ey u
    refine ⟨?_, ?_, ?_⟩
    · constructor
      · rintro ⟨e, he⟩
        by_contra hne
        obtain ⟨bs, hbs⟩ := process_data_not_error (u := u) hne
        rw [hbs] at he
        exact absurd he (by simp)
      · intro he
        exact ⟨_, process_data_empty he⟩
    · rw [chartRows, List.filter_eq_nil_iff]
      constructor
      · intro h r hr hrange
        have := h r hr
        simp [inRange] at this
        exact absurd hrange.2 (not_le.mpr (this hrange.1))
      · intro h r hr
        simp only [inRange, Bool.and_eq_true, decide_eq_true_eq]
        intro hcon
        exact h r hr hcon
    · intro bs h b hb
      have hper : ∀ p ∈ (chartRows df sy ey).map DataRow.year, sy ≤ p ∧ p ≤ ey := by
        intro p hp
        rcases List.mem_map.mp hp with ⟨r, hr, rfl⟩
        exact (mem_chartRows.mp hr).2
      cases u
      · rw [process_data_plain h] at hb
        rcases List.mem_map.mp hb with ⟨p, hp, rfl⟩
        have hp' : p ∈ (chartRows df sy ey).map DataRow.year := by
          rw [allPeriods, mem_sortedDedup] at hp
          exact hp
        exact hper p hp'
      · rw [process_data_cat h] at hb
        rcases List.mem_map.mp hb with ⟨p, hp, rfl⟩
        have hp' : p ∈ (chartRows df sy ey).map DataRow.year := by
          rw [catPeriods, mem_sortedDedup] at hp
          rcases List.mem_map.mp hp with ⟨r, hr, rfl⟩
          exact List.mem_map_of_mem _ (List.mem_of_mem_filter hr)
        exact hper _ hp'
  · exact process_data_empty (by decide)

/-- Witness for C7: the error instance produced through the equivalence at a
concrete dataset, and the bucket-period bound at another. -/
theorem c7_year_range_witness :
    (∃ e, process_data df2010 2015 2020 true = .error e) ∧
    ((2020 : ℤ) ≤ (⟨2021, [(VALUE_COLUMN, 20)], 1⟩ : AggRow).time_period ∧
      (⟨2021, [(VALUE_COLUMN, 20)], 1⟩ : AggRow).time_period ≤ 2021) :=
  ⟨(c7_year_range.1 df2010 2015 2020 true).1.mpr (by decide),
   (c7_year_range.1 smallDf 2020 2021 false).2.2 _ pd_smallDf_plain _
     (List.mem_cons_of_mem _ (List.mem_cons_self _ _))⟩

/-- C9: for every positive bucket count the label font size is the integer
clamp of `150 / n` to `[8, 22]`: `22` above the range, `8` below it, and the
integer part of `150 / n` inside it. -/
theorem c9_font_size :
    ∀ n : ℕ, 0 < n →
      (22 < (150 : ℚ) / n → DYNAMIC_FONT_SIZE n = 22) ∧
      ((150 : ℚ) / n < 8 → DYNAMIC_FONT_SIZE n = 8) ∧
      (8 ≤ (150 : ℚ) / n → (150 : ℚ) / n ≤ 22 → DYNAMIC_FONT_SIZE n = ⌊(150 : ℚ) / n⌋) := by
  intro n hn
  unfold DYNAMIC_FONT_SIZE
  rw [if_pos hn]
  refine ⟨?_, ?_, ?_⟩
  · intro h
    rw [min_eq_left h.le, max_eq_right (by norm_num : (8 : ℚ) ≤ 22)]
    norm_num
  · intro h
    rw [min_eq_right (le_of_lt (lt_trans h (by norm_num))), max_eq_left h.le]
    norm_num
  · intro h1 h2
    rw [min_eq_right h2, max_eq_right h1]

/-- Witness for C9 in all three regimes: 3 buckets (clamped to 22),
40 buckets (clamped to 8) and 10 buckets (integer part 15). -/
theorem c9_font_size_witness :
    DYNAMIC_FONT_SIZE 3 = 22 ∧ DYNAMIC_FONT_SIZE 40 = 8 ∧
      DYNAMIC_FONT_SIZE 10 = ⌊(150 : ℚ) / (10 : ℕ)⌋ :=
  ⟨(c9_font_size 3 (by norm_num)).1 (by norm_num),
   (c9_font_size 40 (by norm_num)).2.1 (by norm_num),
   (c9_font_size 10 (by norm_num)).2.2 (by norm_num) (by norm_num)⟩

/-- C10: a string that cannot be parsed as a colour makes `is_dark_color`
return `False` (the label text stays black) rather than raising; the
function is total over strings by construction. -/
theorem c10_unparseable_color :
    ∀ s : String, to_rgb s = none → is_dark_color s = false :=
  fun _ h => is_dark_color_none h

/-- Witness for C10 at a concrete unparseable string. -/
theorem c10_unparseable_color_witness : is_dark_color "not-a-color" = false :=
  c10_unparseable_color "not-a-color" (by decide)

/-- C2 as stated is false on the code: the no-suffix branch renders to three
significant figures like every other branch, not to two decimal places, so
`format_currency 999` is `"£999"` rather than `"£999.00"`. -/
theorem c2_counterexample : format_currency 999 ≠ "£999.00" := by
  rw [fc_999]
  decide

/-- C2 (amended): for every nonzero value of magnitude below 1000,
`format_currency` renders the magnitude with no unit suffix and no division,
using the same three-significant-figure general rendering (with the
whole-number collapse) as the other branches; in particular
`format_currency 999 = "£999"` and `format_currency (1/2) = "£0.5"`. -/
theorem c2_small_magnitude :
    (∀ v : ℚ, v ≠ 0 → |v| < 1000 →
      format_currency v = (if v < 0 then "-" else "") ++ "£" ++ g3c |v|) ∧
    format_currency 999 = "£999" ∧ format_currency (1 / 2) = "£0.5" :=
  ⟨fun _ h0 hlt => format_currency_small h0 hlt, fc_999, fc_half⟩

/-- Witness for C2 (amended) at the concrete value 999. -/
theorem c2_small_magnitude_witness :
    format_currency 999 = (if (999 : ℚ) < 0 then "-" else "") ++ "£" ++ g3c |(999 : ℚ)| :=
  c2_small_magnitude.1 999 (by norm_num) (by norm_num)

/-- C3: for magnitudes of at least 1000 the formatter divides by the
threshold-selected power of ten and appends the matching unit (`b` for at
least 1e9, then `m`, then `k`), prefixes `-` before the currency symbol for
negatives, renders the scaled magnitude to three significant figures
(mantissa between 100 and 999, within half a unit in the last place),
dropping the decimal point entirely on whole numbers, and maps 0 to `"£0"`;
the specification's concrete examples all hold. -/
theorem c3_unit_scaling :
    (∀ v : ℚ, 1000 ≤ |v| →
      format_currency v = (if v < 0 then "-" else "") ++ "£" ++
        (if |v| ≥ 1e9 then g3c (|v| / 1e9) ++ "b"
         else if |v| ≥ 1e6 then g3c (|v| / 1e6) ++ "m"
         else g3c (|v| / 1e3) ++ "k")) ∧
    (∀ x : ℚ, 0 < x → 100 ≤ (sig3 x).1 ∧ (sig3 x).1 ≤ 999 ∧
      |x - (sig3 x).1 * (10 : ℚ) ^ ((sig3 x).2 - 2)| ≤ (10 : ℚ) ^ ((sig3 x).2 - 2) / 2) ∧
    format_currency 1000 = "£1k" ∧ format_currency 2000000 = "£2m" ∧
    format_currency 1500000000 = "£1.5b" ∧ format_currency (-5000) = "-£5k" ∧
    format_currency 0 = "£0" :=
  ⟨fun _ h => format_currency_large h, fun _ hx => sig3_spec hx,
   fc_1000, fc_2000000, fc_1500000000, fc_neg5000, fc_zero⟩

/-- Witness for C3 at the concrete value −5000 and scaled mantissa 3/2. -/
theorem c3_unit_scaling_witness :
    (format_currency (-5000) = (if (-5000 : ℚ) < 0 then "-" else "") ++ "£" ++
      (if |(-5000 : ℚ)| ≥ 1e9 then g3c (|(-5000 : ℚ)| / 1e9) ++ "b"
       else if |(-5000 : ℚ)| ≥ 1e6 then g3c (|(-5000 : ℚ)| / 1e6) ++ "m"
       else g3c (|(-5000 : ℚ)| / 1e3) ++ "k")) ∧
    100 ≤ (sig3 (3 / 2)).1 :=
  ⟨c3_unit_scaling.1 (-5000) (by norm_num),
   (c3_unit_scaling.2.1 (3 / 2) (by norm_num)).1⟩

/-- Splitting a conjunctive row predicate into two successive filters. -/
theorem filter_year_and (l : List DataRow) (p : ℤ) (q : DataRow → Prop) [DecidablePred q] :
    l.filter (fun r => decide (r.year = p ∧ q r))
      = (l.filter (fun r => decide (r.year = p))).filter (fun r => decide (q r)) := by
  rw [List.filter_filter]
  apply List.filter_congr
  intro a _
  rw [decide_and_eq, Bool.and_comm]

/-- C5 as stated is false on the code: `pandas.groupby` drops rows whose
category cell is missing, so such rows are counted in `row_count` but their
values never enter `value_by_category`; on a bucket holding a 100-valued
categorised row and a 50-valued category-less row the mapping sums to 100
while the raw value sum is 150. -/
theorem c5_counterexample :
    process_data mixedCatDf 2020 2020 true = Except.ok [⟨2020, [("A", 100)], 2⟩] ∧
    ¬ ((vbcSum ⟨2020, [("A", 100)], 2⟩)
        = valSum ((chartRows mixedCatDf 2020 2020).filter (fun r => decide (r.year = 2020)))) := by
  refine ⟨pd_mixed, ?_⟩
  have h1 : vbcSum ⟨2020, [("A", 100)], 2⟩ = 100 := by norm_num [vbcSum]
  have h2 : valSum ((chartRows mixedCatDf 2020 2020).filter (fun r => decide (r.year = 2020)))
      = 150 := by
    rw [(by decide : chartRows mixedCatDf 2020 2020 = mixedCatDf)]
    norm_num [valSum, mixedCatDf, List.filter_cons, List.sum_cons]
  rw [h1, h2]
  norm_num

/-- C5 (amended): every bucket's `value_by_category` sums to the raw value
total of the bucket's rows that carry a category value (rows with a missing
category are excluded from the sums though still counted in `row_count`);
every (period, category) pair with no records is present with the value 0 —
the lookup always succeeds and returns the per-pair raw sum; and with no
category column the single total equals the raw sum over all bucket rows. -/
theorem c5_sum_invariant :
    ∀ (df : List DataRow) (sy ey : ℤ) (u : Bool) (bs : List AggRow),
      process_data df sy ey u = .ok bs → ∀ b ∈ bs,
      (u = true →
        vbcSum b = valSum ((chartRows df sy ey).filter
          (fun r => decide (r.year = b.time_period ∧ r.category ≠ none))) ∧
        (∀ c ∈ catsOf (chartRows df sy ey),
          b.value_by_category.lookup c = some (valSum ((chartRows df sy ey).filter
            (fun r => decide (r.year = b.time_period ∧ r.category = some c)))))) ∧
      (u = false →
        vbcSum b
          = valSum ((chartRows df sy ey).filter (fun r => decide (r.year = b.time_period)))) := by
  intro df sy ey u bs h b hb
  cases u
  · refine ⟨fun hcon => absurd hcon (by simp), fun _ => ?_⟩
    rw [process_data_plain h] at hb
    rcases List.mem_map.mp hb with ⟨p, _, rfl⟩
    simp [vbcSum]
  · refine ⟨fun _ => ⟨?_, ?_⟩, fun hcon => absurd hcon (by simp)⟩
    · rw [process_data_cat h] at hb
      rcases List.mem_map.mp hb with ⟨p, _, rfl⟩
      simp only [vbcSum, List.map_map]
      have hcomp : (Prod.snd ∘ fun c =>
          (c, valSum ((chartRows df sy ey).filter
            (fun r => decide (r.year = p ∧ r.category = some c)))))
          = fun c => valSum ((chartRows df sy ey).filter
            (fun r => decide (r.year = p ∧ r.category = some c))) := rfl
      rw [hcomp]
      show (List.map (fun c => valSum ((chartRows df sy ey).filter
          (fun r => decide (r.year = p ∧ r.category = some c))))
            (catsOf (chartRows df sy ey))).sum
        = valSum ((chartRows df sy ey).filter
            (fun r => decide (r.year = p ∧ r.category ≠ none)))
      rw [filter_year_and (q := fun r => r.category ≠ none)]
      have hsplit : ∀ c : String,
          (chartRows df sy ey).filter (fun r => decide (r.year = p ∧ r.category = some c))
            = ((chartRows df sy ey).filter (fun r => decide (r.year = p))).filter
                (fun r => decide (r.category = some c)) :=
        fun c => filter_year_and _ _ (fun r => r.category = some c)
      simp only [hsplit]
      apply sum_by_cats
      · exact sortedDedup_nodup _
      · intro r hr c hc
        rw [catsOf, mem_sortedDedup]
        exact List.mem_filterMap.mpr ⟨r, List.mem_of_mem_filter hr, hc⟩
    · intro c hc
      rw [process_data_cat h] at hb
      rcases List.mem_map.mp hb with ⟨p, _, rfl⟩
      exact lookup_map_self _ _ hc

/-- Witness for C5 (amended) on the mixed dataset: the categorised pair is
present via lookup with its per-pair sum. -/
theorem c5_sum_invariant_witness :
    (⟨2020, [("A", 100)], 2⟩ : AggRow).value_by_category.lookup "A"
      = some (valSum ((chartRows mixedCatDf 2020 2020).filter
          (fun r => decide (r.year = (⟨2020, [("A", 100)], 2⟩ : AggRow).time_period ∧
            r.category = some "A")))) :=
  ((c5_sum_invariant mixedCatDf 2020 2020 true _ pd_mixed _ (List.mem_cons_self _ _)).1
    rfl).2 "A" (by decide)

/-- C8: a bar-segment label is white exactly when the segment's fill colour
is dark, darkness being luminance `0.2126·R + 0.7152·G + 0.0722·B < 0.5`
over RGB components lying in `[0, 1]`; black is dark (white text) and white
is light (black text). -/
theorem c8_darkness :
    (∀ (s : String) (r g b : ℚ), to_rgb s = some (r, g, b) →
      (bar_text_color s = "#FFFFFF" ↔ 0.2126 * r + 0.7152 * g + 0.0722 * b < 0.5) ∧
      (0 ≤ r ∧ r ≤ 1) ∧ (0 ≤ g ∧ g ≤ 1) ∧ (0 ≤ b ∧ b ≤ 1)) ∧
    (∀ s : String,
      (bar_text_color s = "#FFFFFF" ↔ is_dark_color s = true) ∧
      (bar_text_color s = "#000000" ↔ is_dark_color s = false)) ∧
    is_dark_color "#000000" = true ∧ bar_text_color "#000000" = "#FFFFFF" ∧
    is_dark_color "#FFFFFF" = false ∧ bar_text_color "#FFFFFF" = "#000000" := by
  refine ⟨?_, ?_, is_dark_black, ?_, is_dark_white, ?_⟩
  · intro s r g b h
    exact ⟨(bar_text_color_white_iff s).trans (is_dark_color_some h), to_rgb_bounds h⟩
  · intro s
    exact ⟨bar_text_color_white_iff s, bar_text_color_black_iff s⟩
  · simp [bar_text_color, is_dark_black]
  · simp [bar_text_color, is_dark_white]

/-- Witness for C8 at the palette colour `#4A3F8F`. -/
theorem c8_darkness_witness :
    (bar_text_color "#4A3F8F" = "#FFFFFF" ↔
      0.2126 * chan 4 10 + 0.7152 * chan 3 15 + 0.0722 * chan 8 15 < 0.5) ∧
    (0 ≤ chan 4 10 ∧ chan 4 10 ≤ 1) ∧ (0 ≤ chan 3 15 ∧ chan 3 15 ≤ 1) ∧
    (0 ≤ chan 8 15 ∧ chan 8 15 ≤ 1) :=
  c8_darkness.1 "#4A3F8F" (chan 4 10) (chan 3 15) (chan 8 15) rfl

end FundChart
